import Mathlib

/-!
# Verification of the WristControlledQuadruped motion core

Shallow embedding of the repository's motion-control core:

* `kinematics_solver.k_solver` / `gait_manager.GaitManager` — these modules are
  imported by `raspi_controller/q8gait/motion_runner.py` and
  `raspi_controller/q8_gait_controller.py` but their source files are not part
  of the repository snapshot; they are modelled from the specification
  (§4.1–§4.3), as flagged in the doc comment of each such definition.
* `raspi_controller/q8gait/motion_runner.py` — `MotionRunner` (scheduler).
* `raspi_controller/q8_gait_controller.py` — `Q8GaitController`.
* `legacy/state_machine.py` — `StateMachine`.

Machine floats are modelled by `ℝ` (exact real arithmetic); scheduler clock
times by `ℚ`; Python strings by `String`; Python `None` by `Option`.
-/

set_option maxHeartbeats 1600000

/-! ## Leg kinematics (modelled from the spec, §4.1) -/

/-- Geometry shared by all four legs (spec §3 `LegGeometry`); the `k_solver`
constructor in `main_trot_jump_enhanced.py` is called as
`k_solver(CENTER_DIST, L1, L2, L1, L2)`. -/
structure LegGeometry where
  center_distance : ℝ
  link1_length : ℝ
  link2_length : ℝ

/-- Modelled from the spec: `kinematics_solver.py` is missing from the
snapshot.  §4.1: "let `d = sqrt(x²+y²)`; if `d` is outside
`[|L1−L2|, L1+L2]` the target is unreachable". -/
def reachable (g : LegGeometry) (x y : ℝ) : Prop :=
  |g.link1_length - g.link2_length| ≤ Real.sqrt (x ^ 2 + y ^ 2) ∧
    Real.sqrt (x ^ 2 + y ^ 2) ≤ g.link1_length + g.link2_length

/-- Two-argument arctangent, `atan2 y x`, as the argument of the complex
number `x + y·i`. -/
noncomputable def atan2 (y x : ℝ) : ℝ := Complex.arg ⟨x, y⟩

/-- Modelled from the spec, §4.1: knee angle from the law of cosines,
`cos(q_knee) = (d² − L1² − L2²) / (2·L1·L2)`, principal branch. -/
noncomputable def ik_q2R (g : LegGeometry) (x y : ℝ) : ℝ :=
  Real.arccos ((x ^ 2 + y ^ 2 - g.link1_length ^ 2 - g.link2_length ^ 2) /
    (2 * g.link1_length * g.link2_length))

/-- Modelled from the spec, §4.1: hip angle from `atan2(y, x)` minus the
triangle offset angle. -/
noncomputable def ik_q1R (g : LegGeometry) (x y : ℝ) : ℝ :=
  atan2 y x -
    atan2 (g.link2_length * Real.sin (ik_q2R g x y))
      (g.link1_length + g.link2_length * Real.cos (ik_q2R g x y))

/-- Output-unit scaling selected by the caller's `deg` flag (spec §4.1:
"output unit and rounding are caller-selectable"; the decimal rounding of the
Python caller is not modelled). -/
noncomputable def degScale (deg : Bool) : ℝ := if deg then 180 / Real.pi else 1

open Classical in
/-- Modelled from the spec: `k_solver.ik_solve(x, y, deg, rounding) ->
(q1, q2, ok)`; on an unreachable target it returns `ok = false` and a defined
zero fallback, and it mutates no state (it is a pure function). -/
noncomputable def ik_solve (g : LegGeometry) (x y : ℝ) (deg : Bool) : ℝ × ℝ × Bool :=
  if reachable g x y then
    (degScale deg * ik_q1R g x y, degScale deg * ik_q2R g x y, true)
  else (0, 0, false)

/-- Forward kinematics of the planar 2-link leg (spec §2: "the inverse
mapping for validation"). -/
noncomputable def fk (g : LegGeometry) (q1 q2 : ℝ) : ℝ × ℝ :=
  (g.link1_length * Real.cos q1 + g.link2_length * Real.cos (q1 + q2),
   g.link1_length * Real.sin q1 + g.link2_length * Real.sin (q1 + q2))

/-! ## Gait library and trajectory engine (modelled from the spec, §4.2–§4.3)

`gait_manager.py` (class `GaitManager` and the table `GAITS`) is imported by
`motion_runner.py` and `q8_gait_controller.py` but its source file is not in
the repository snapshot; the definitions below are modelled from the spec.
The `GAITS` entries observed in `main_trot_jump_enhanced.py` have the tuple
shape `[kind, x0, y0, x_range, y_range, y_boost, s1_count, s2_count]`. -/

/-- Trajectory-shape selector (spec §3 `GaitSpec.kind`). -/
inductive GaitKind
  | trot
  | jump
deriving DecidableEq

/-- A named, immutable gait parameter record (spec §3 `GaitSpec`);
`swing_ticks + stance_ticks` is one full cycle length in ticks. -/
structure GaitSpec where
  kind : GaitKind
  x0 : ℝ
  y0 : ℝ
  x_range : ℝ
  y_range : ℝ
  y_boost : ℝ
  swing_ticks : ℕ
  stance_ticks : ℕ

/-- Direction codes used by the trajectories: the source strings
`"f"`, `"b"`, `"l"`, `"r"`, `"in_place"` (see `GESTURE_TO_DIR` in
`motion_runner.py`). -/
inductive Direction
  | f
  | b
  | l
  | r
  | in_place
deriving DecidableEq

/-- The overridable gait table `name -> GaitSpec` (spec §4.2). -/
abbrev GaitTable := List (String × GaitSpec)

/-- Dictionary lookup `GAITS[name]`. -/
def lookupGait (t : GaitTable) (name : String) : Option GaitSpec :=
  match t with
  | [] => none
  | (k, v) :: rest => if k = name then some v else lookupGait rest name

/-- Modelled from the spec, §4.3 `start_movement`: a gait kind may not define
a trajectory for a direction; the trot defines the four walking directions
and the jump additionally defines the in-place variant. -/
def directionSupported (k : GaitKind) (d : Direction) : Bool :=
  match k, d with
  | .trot, .in_place => false
  | .trot, _ => true
  | .jump, _ => true

/-- The four legs, in the order of the 8-angle list
`[fl1, fl2, fr1, fr2, bl1, bl2, br1, br2]` documented in
`q8_gait_controller.py`. -/
inductive Leg
  | FL
  | FR
  | BL
  | BR
deriving DecidableEq

/-- Modelled from the spec, §4.3.2: 180°-phase relationship between the
diagonal leg pairs (front-left+rear-right against front-right+rear-left). -/
def legPhaseOffset (s : GaitSpec) (leg : Leg) : ℕ :=
  match leg with
  | .FL | .BR => 0
  | .FR | .BL => (s.swing_ticks + s.stance_ticks) / 2

def legIsLeft (leg : Leg) : Bool :=
  match leg with
  | .FL | .BL => true
  | .FR | .BR => false

/-- Modelled from the spec, §4.3.2: direction flips the sign of the fore-aft
component; turning directions apply a differential left/right bias. -/
def trotDirSign (d : Direction) (leg : Leg) : ℝ :=
  match d with
  | .f => 1
  | .b => -1
  | .l => if legIsLeft leg then -1 else 1
  | .r => if legIsLeft leg then 1 else -1
  | .in_place => 0

/-- Modelled from the spec, §4.3 steps 2–3: the per-leg planar foot target at
a given tick of the cycle.  Trot: sinusoidal fore-aft path scaled by
`x_range`, vertical lift by `y_range` during the swing segment only.  Jump:
all legs in unison; during swing (crouch) the vertical target ramps toward
`y0 − y_boost`, during stance (release) it ramps back through `y0` and beyond,
and a directional jump adds an `x_range`-scaled fore-aft offset during the
push-off segment only. -/
noncomputable def footTarget (s : GaitSpec) (d : Direction) (leg : Leg) (tick : ℕ) : ℝ × ℝ :=
  let T := s.swing_ticks + s.stance_ticks
  match s.kind with
  | .trot =>
    let τ := (tick + legPhaseOffset s leg) % T
    (s.x0 + trotDirSign d leg * (s.x_range / 2) * Real.sin (2 * Real.pi * τ / T),
     if τ < s.swing_ticks then s.y0 - s.y_range * Real.sin (Real.pi * τ / s.swing_ticks)
     else s.y0)
  | .jump =>
    let τ := tick % T
    if τ < s.swing_ticks then
      (s.x0, s.y0 - s.y_boost * ((τ : ℝ) + 1) / s.swing_ticks)
    else
      (s.x0 + s.x_range * ((τ - s.swing_ticks : ℕ) + 1 : ℝ) / s.stance_ticks,
       s.y0 - s.y_boost + 2 * s.y_boost * ((τ - s.swing_ticks : ℕ) + 1 : ℝ) / s.stance_ticks)

/-- One leg's IK solution in degrees, `none` on an unreachable target. -/
noncomputable def legIKdeg (g : LegGeometry) (p : ℝ × ℝ) : Option (ℝ × ℝ) :=
  let r := ik_solve g p.1 p.2 true
  if r.2.2 then some (r.1, r.2.1) else none

/-- Modelled from the spec, §4.3 step 4: convert the four foot targets to
joint angles per leg; an IK failure for any leg fails the whole tick point
(the engine then reuses the previous tick's result). -/
noncomputable def trajPoint (g : LegGeometry) (s : GaitSpec) (d : Direction) (tick : ℕ) :
    Option (List ℝ) :=
  match legIKdeg g (footTarget s d .FL tick), legIKdeg g (footTarget s d .FR tick),
      legIKdeg g (footTarget s d .BL tick), legIKdeg g (footTarget s d .BR tick) with
  | some (a1, a2), some (b1, b2), some (c1, c2), some (e1, e2) =>
      some [a1, a2, b1, b2, c1, c2, e1, e2]
  | _, _, _, _ => none

/-- Modelled from the spec, §3 `GaitState` plus the engine's construction
references: the mutable state owned by `GaitManager`. -/
structure GaitManager where
  geom : LegGeometry
  table : GaitTable
  loaded_name : String
  loaded : GaitSpec
  neutral : List ℝ
  current_direction : Option Direction
  phase_tick : ℕ
  prev_out : List ℝ

/-- Placeholder gait of a freshly constructed manager (before `load_gait`). -/
def defaultSpec : GaitSpec := ⟨.trot, 0, 0, 0, 0, 0, 0, 0⟩

/-- `GaitManager(leg, gaits)` before any gait is loaded. -/
def initGM (g : LegGeometry) (t : GaitTable) : GaitManager :=
  ⟨g, t, "", defaultSpec, [], none, 0, []⟩

/-- Modelled from the spec, §4.3 `load_gait(name)`: fails (`false`) on an
absent name; on success computes the neutral angles by one `ik_solve(x0, y0)`
call replicated across the four legs; fails (`false`) if the neutral pose is
IK-unreachable. -/
noncomputable def GaitManager.load_gait (gm : GaitManager) (name : String) :
    Bool × GaitManager :=
  match lookupGait gm.table name with
  | none => (false, gm)
  | some s =>
    let r := ik_solve gm.geom s.x0 s.y0 true
    if r.2.2 then
      (true, { gm with loaded_name := name, loaded := s,
                       neutral := [r.1, r.2.1, r.1, r.2.1, r.1, r.2.1, r.1, r.2.1],
                       prev_out := [r.1, r.2.1, r.1, r.2.1, r.1, r.2.1, r.1, r.2.1] })
    else (false, gm)

/-- Modelled from the spec, §4.3 `start_movement(direction)`: idempotent
no-op success on the current direction; `false` and unchanged state on an
unsupported direction; otherwise set the direction and reset `phase_tick`. -/
def GaitManager.start_movement (gm : GaitManager) (d : Direction) : Bool × GaitManager :=
  if gm.current_direction = some d then (true, gm)
  else if directionSupported gm.loaded.kind d then
    (true, { gm with current_direction := some d, phase_tick := 0 })
  else (false, gm)

/-- Modelled from the spec, §4.3 `stop()`: clear the direction, keep
`phase_tick`. -/
def GaitManager.stop (gm : GaitManager) : GaitManager :=
  { gm with current_direction := none }

/-- Modelled from the spec, §4.3 `is_moving()`. -/
def GaitManager.is_moving (gm : GaitManager) : Bool :=
  gm.current_direction.isSome

/-- Modelled from the spec, §4.3 `get_current_direction()`. -/
def GaitManager.get_current_direction (gm : GaitManager) : Option Direction :=
  gm.current_direction

/-- Modelled from the spec, §4.3 `tick()`: `none` when not moving; otherwise
the trajectory point for the current phase (falling back to the previous
result on IK failure), advancing
`phase_tick = (phase_tick + 1) mod (swing_ticks + stance_ticks)`. -/
noncomputable def GaitManager.tick (gm : GaitManager) : Option (List ℝ) × GaitManager :=
  match gm.current_direction with
  | none => (none, gm)
  | some d =>
    let out := (trajPoint gm.geom gm.loaded d gm.phase_tick).getD gm.prev_out
    (some out,
     { gm with
        phase_tick := (gm.phase_tick + 1) % (gm.loaded.swing_ticks + gm.loaded.stance_ticks),
        prev_out := out })

/-- The engine state after `n` ticks. -/
noncomputable def GaitManager.tickN (gm : GaitManager) : ℕ → GaitManager
  | 0 => gm
  | n + 1 => (GaitManager.tick (gm.tickN n)).2

/-- The engine output at tick index `n` (0-based). -/
noncomputable def GaitManager.outAt (gm : GaitManager) (n : ℕ) : Option (List ℝ) :=
  (GaitManager.tick (gm.tickN n)).1

/-- Concrete leg geometry for witnesses: unit link lengths. -/
noncomputable def wGeom : LegGeometry := ⟨0, 1, 1⟩

/-- Concrete two-tick jump gait for witnesses. -/
noncomputable def wJumpSpec : GaitSpec := ⟨.jump, 0, 1, 0, 0, 1/2, 1, 1⟩

/-- Concrete engine state for witnesses: jump gait loaded, moving in place. -/
noncomputable def wGM : GaitManager :=
  ⟨wGeom, [("JUMP", wJumpSpec)], "JUMP", wJumpSpec, [], some .in_place, 0, []⟩

/-! ## Robot state machine (`legacy/state_machine.py`)

Gestures are the string literals of `wrist_interface.Gesture`:
`"none" | "forward" | "turn_left" | "turn_right" | "stop"` (the `"none"` token
is the "no gesture" reading); the state machine also tolerates arbitrary
strings. -/

/-- The four robot states (`RobotState` enum). -/
inductive RobotState
  | INIT
  | IDLE
  | MOVING
  | SAFETY_STOP
deriving DecidableEq

/-- `StateMachine._gesture_to_command`: the three movement gestures map to
themselves, everything else to `"idle"`. -/
def gestureToCommand (gesture : String) : String :=
  if gesture = "forward" then "forward"
  else if gesture = "turn_left" then "turn_left"
  else if gesture = "turn_right" then "turn_right"
  else "idle"

/-- `StateMachine.update`: maps `(state, gesture)` to
`(next state, command)`; the Python method mutates `self.state` to the
returned state. -/
def StateMachine.update (state : RobotState) (gesture : String) : RobotState × String :=
  match state with
  | .INIT => (.IDLE, "idle")
  | .SAFETY_STOP =>
    if gesture = "forward" ∨ gesture = "turn_left" ∨ gesture = "turn_right" then
      (.MOVING, gestureToCommand gesture)
    else (.SAFETY_STOP, "idle")
  | .IDLE =>
    if gesture = "forward" then (.MOVING, "forward")
    else if gesture = "turn_left" then (.MOVING, "turn_left")
    else if gesture = "turn_right" then (.MOVING, "turn_right")
    else (.IDLE, "idle")
  | .MOVING =>
    if gesture = "stop" ∨ gesture = "none" then (.IDLE, "idle")
    else (.MOVING, gestureToCommand gesture)

/-- `StateMachine.emergency_stop`: unconditional transition to
`SAFETY_STOP`. -/
def StateMachine.emergency_stop (_ : RobotState) : RobotState := .SAFETY_STOP

/-! ## `raspi_controller/q8_gait_controller.py` -/

/-- The actuator-space center value, `CENTER_DEG = 150.0`. -/
def CENTER_DEG : ℝ := 150

/-- A pose dictionary: one angle per joint name, in the `JOINT_NAMES`
order of `q8_gait_controller.py`. -/
structure Pose where
  front_left_leg_1 : ℝ
  front_left_leg_2 : ℝ
  back_left_leg_1 : ℝ
  back_left_leg_2 : ℝ
  back_right_leg_1 : ℝ
  back_right_leg_2 : ℝ
  front_right_leg_1 : ℝ
  front_right_leg_2 : ℝ

/-- `self._neutral_pose`: all joints at offset `0.0`. -/
def neutralPose : Pose := ⟨0, 0, 0, 0, 0, 0, 0, 0⟩

/-- `math.radians`: degrees to radians. -/
noncomputable def radians (deg : ℝ) : ℝ := deg * Real.pi / 180

/-- The `Q8GaitController` state: its gait manager and the neutral IK angles
(in degrees) computed at construction. -/
structure Q8GaitController where
  gm : GaitManager
  neutral_q1_deg : ℝ
  neutral_q2_deg : ℝ

/-- The token branch of `Q8GaitController._map_command_to_direction`,
operating on the already stripped and lower-cased command string `cmd_str`;
every unknown token maps to `None` (idle). -/
def mapNormalizedCommand (cmd_str : String) : Option Direction :=
  if cmd_str = "idle" ∨ cmd_str = "none" ∨ cmd_str = "stop" ∨ cmd_str = "" then none
  else if cmd_str = "forward" ∨ cmd_str = "f" then some .f
  else if cmd_str = "backward" ∨ cmd_str = "b" then some .b
  else if cmd_str = "turn_left" ∨ cmd_str = "left" ∨ cmd_str = "l" then some .l
  else if cmd_str = "turn_right" ∨ cmd_str = "right" ∨ cmd_str = "r" then some .r
  else none

/-- `Q8GaitController._map_command_to_direction`: case-insensitive,
whitespace-trimmed (`.strip().lower()`) mapping from a raw command token to a
direction code — total on all strings. -/
def mapCommandToDirection (command : String) : Option Direction :=
  mapNormalizedCommand command.trim.toLower

/-- `Q8GaitController._deg_list_to_joint_dict`: absolute degrees
`[fl1, fl2, fr1, fr2, bl1, bl2, br1, br2]` to radian offsets from neutral;
the right side swaps joint 1 and joint 2; anything that is not an 8-element
list yields the neutral pose. -/
noncomputable def degListToJointDict (c : Q8GaitController) (angles : Option (List ℝ)) : Pose :=
  match angles with
  | some [fl1, fl2, fr1, fr2, bl1, bl2, br1, br2] =>
    { front_left_leg_1 := radians (fl1 - c.neutral_q1_deg)
      front_left_leg_2 := radians (fl2 - c.neutral_q2_deg)
      back_left_leg_1 := radians (bl1 - c.neutral_q1_deg)
      back_left_leg_2 := radians (bl2 - c.neutral_q2_deg)
      back_right_leg_1 := radians (br2 - c.neutral_q2_deg)
      back_right_leg_2 := radians (br1 - c.neutral_q1_deg)
      front_right_leg_1 := radians (fr2 - c.neutral_q2_deg)
      front_right_leg_2 := radians (fr1 - c.neutral_q1_deg) }
  | _ => neutralPose

/-- `Q8GaitController.step(dt, command)`: idle commands stop the engine and
return the neutral pose; movement commands (re)start the engine when needed,
falling back to neutral when the direction is unsupported; otherwise one
engine tick is converted to a joint dictionary. -/
noncomputable def Q8GaitController.step (c : Q8GaitController) (command : String) :
    Pose × Q8GaitController :=
  match mapCommandToDirection command with
  | none =>
    (neutralPose, { c with gm := if c.gm.is_moving then c.gm.stop else c.gm })
  | some direction =>
    if !c.gm.is_moving || decide (c.gm.get_current_direction ≠ some direction) then
      match c.gm.start_movement direction with
      | (false, gm') => (neutralPose, { c with gm := gm' })
      | (true, gm') =>
        let t := GaitManager.tick gm'
        (degListToJointDict c t.1, { c with gm := t.2 })
    else
      let t := GaitManager.tick c.gm
      (degListToJointDict c t.1, { c with gm := t.2 })

/-- `Q8GaitController.pose_from_xy(x, y)`: one IK solution replicated to all
legs, right side swapped; the neutral pose on IK failure. -/
noncomputable def Q8GaitController.pose_from_xy (c : Q8GaitController) (x y : ℝ) : Pose :=
  let r := ik_solve c.gm.geom x y true
  if r.2.2 then
    { front_left_leg_1 := radians (r.1 - c.neutral_q1_deg)
      front_left_leg_2 := radians (r.2.1 - c.neutral_q2_deg)
      back_left_leg_1 := radians (r.1 - c.neutral_q1_deg)
      back_left_leg_2 := radians (r.2.1 - c.neutral_q2_deg)
      back_right_leg_1 := radians (r.2.1 - c.neutral_q2_deg)
      back_right_leg_2 := radians (r.1 - c.neutral_q1_deg)
      front_right_leg_1 := radians (r.2.1 - c.neutral_q2_deg)
      front_right_leg_2 := radians (r.1 - c.neutral_q1_deg) }
  else neutralPose

/-- `Q8GaitController.__init__(default_gait)`: raises (`error`) on a name
outside `GAITS` and on a failed `load_gait`; on success stores the neutral IK
angles (discarding the `ok` flag, as the source does). -/
noncomputable def mkQ8GaitController (geom : LegGeometry) (table : GaitTable)
    (default_gait : String) : Except String Q8GaitController :=
  if (lookupGait table default_gait).isNone then
    .error "Unknown gait"
  else
    match (initGM geom table).load_gait default_gait with
    | (false, _) => .error "Failed to load gait"
    | (true, gm) =>
      let s := (lookupGait table default_gait).getD defaultSpec
      let r := ik_solve geom s.x0 s.y0 true
      .ok ⟨gm, r.1, r.2.1⟩

/-! ## `raspi_controller/q8gait/motion_runner.py`

The actuator sink (`robot.write_positions_deg`) is modelled by collecting the
written 8-value pose lists; `set_torque_limit_all` / `set_moving_speed_all`
issue no position writes and are not modelled.  Sleeping and wall-clock time
appear only in the loop model, where the clock is an explicit input. -/

/-- The `GESTURE_TO_DIR` dictionary of `motion_runner.py` as
`dict.get(gesture, None)`. -/
def GESTURE_TO_DIR (gesture : String) : Option Direction :=
  if gesture = "forward" then some .f
  else if gesture = "backward" then some .b
  else if gesture = "turn_left" then some .l
  else if gesture = "turn_right" then some .r
  else if gesture = "stop" then none
  else if gesture = "jump" then some .in_place
  else if gesture = "jump_forward" then some .f
  else if gesture = "jump_backward" then some .b
  else if gesture = "jump_left" then some .l
  else if gesture = "jump_right" then some .r
  else none

/-- The `MotionRunner` state (`__init__` fields; `dt = 1/hz`). -/
structure MotionRunner where
  gm : GaitManager
  gaits : GaitTable
  hz : ℕ
  neutral_center_deg : ℝ
  gait_name : String
  neutral_x : ℝ
  neutral_y : ℝ
  q_neutral : List ℝ
  current_dir : Option Direction
  is_jumping : Bool

/-- `MotionRunner.__init__`: raises (`error`) when `load_gait` fails or the
neutral pose is IK-unreachable; otherwise replicates the neutral IK angles
across the four legs. -/
noncomputable def mkMotionRunner (geom : LegGeometry) (gait_name : String) (hz : ℕ)
    (neutral_center_deg : ℝ) (gaits : GaitTable) : Except String MotionRunner :=
  match (initGM geom gaits).load_gait gait_name with
  | (false, _) => .error "Failed to load gait"
  | (true, gm) =>
    let s := (lookupGait gaits gait_name).getD defaultSpec
    let r := ik_solve geom s.x0 s.y0 true
    if r.2.2 then
      .ok { gm := gm, gaits := gaits, hz := hz, neutral_center_deg := neutral_center_deg,
            gait_name := gait_name, neutral_x := s.x0, neutral_y := s.y0,
            q_neutral := [r.1, r.2.1, r.1, r.2.1, r.1, r.2.1, r.1, r.2.1],
            current_dir := none, is_jumping := false }
    else .error "IK failed for neutral pose."

/-- `MotionRunner._recenter_to_150`: per joint,
`neutral_center + (absolute − neutral)`. -/
noncomputable def MotionRunner.recenter_to_150 (r : MotionRunner) (q_abs_8 : List ℝ) : List ℝ :=
  (List.range 8).map fun i => r.neutral_center_deg + (q_abs_8.getD i 0 - r.q_neutral.getD i 0)

/-- `MotionRunner.move_to_neutral(seconds)`: `max(1, int(seconds·hz))` writes
of the all-center pose (returned as the list of writes). -/
noncomputable def MotionRunner.move_to_neutral_writes (r : MotionRunner) (seconds : ℚ) :
    List (List ℝ) :=
  List.replicate (max 1 (Int.toNat ⌊seconds * r.hz⌋)) (List.replicate 8 r.neutral_center_deg)

/-- The jump gait chosen by `do_jump` for a direction. -/
def jumpGaitFor (direction : Direction) : String :=
  if direction = .f then "JUMP_FORWARD"
  else if direction = .b then "JUMP_BACKWARD"
  else "JUMP"

/-- The synchronous write loop inside `do_jump`: `n` engine ticks, writing
the recentered pose whenever the engine returns one. -/
noncomputable def jumpLoop (r : MotionRunner) : ℕ → GaitManager → List (List ℝ) × GaitManager
  | 0, gm => ([], gm)
  | n + 1, gm =>
    let t := GaitManager.tick gm
    let ws := match t.1 with
      | some q_abs => [r.recenter_to_150 q_abs]
      | none => []
    let rest := jumpLoop r n t.2
    (ws ++ rest.1, rest.2)

/-- `MotionRunner.do_jump(direction)`: save the gait name, stop, load the
direction's jump gait, start it, run one full cycle of synchronous ticks,
stop, reload the saved gait and settle at neutral for half a second.  The
first component collects the actuator writes in order. -/
noncomputable def MotionRunner.do_jump (r : MotionRunner) (direction : Direction) :
    List (List ℝ) × MotionRunner :=
  let saved_gait := r.gait_name
  let gm0 := r.gm.stop
  let jump_gait := jumpGaitFor direction
  match gm0.load_gait jump_gait with
  | (false, gm1) => ([], { r with gm := gm1, current_dir := none })
  | (true, gm1) =>
    match gm1.start_movement direction with
    | (false, gm2) =>
      ([], { r with gm := (gm2.load_gait saved_gait).2, current_dir := none })
    | (true, gm2) =>
      let jump_params := (lookupGait r.gaits jump_gait).getD defaultSpec
      let total := jump_params.swing_ticks + jump_params.stance_ticks
      let res := jumpLoop r total gm2
      let gm3 := res.2.stop
      (res.1 ++ r.move_to_neutral_writes (1/2),
       { r with gm := (gm3.load_gait saved_gait).2, current_dir := none,
                is_jumping := false })

/-- `MotionRunner.set_gesture(gesture)`: `None` is ignored; jump gestures run
`do_jump`; movement gestures start the engine (falling back to stop on
failure); anything else stops the engine. -/
noncomputable def MotionRunner.set_gesture (r : MotionRunner) (gesture : Option String) :
    List (List ℝ) × MotionRunner :=
  match gesture with
  | none => ([], r)
  | some g =>
    if g = "jump" ∨ g = "jump_forward" ∨ g = "jump_backward" ∨
        g = "jump_left" ∨ g = "jump_right" then
      r.do_jump ((GESTURE_TO_DIR g).getD .in_place)
    else
      match GESTURE_TO_DIR g with
      | none => ([], { r with gm := r.gm.stop, current_dir := none })
      | some direction =>
        match r.gm.start_movement direction with
        | (true, gm') => ([], { r with gm := gm', current_dir := some direction })
        | (false, gm') => ([], { r with gm := gm'.stop, current_dir := none })

/-- `MotionRunner.tick()`: the neutral-center pose when the engine is
stopped, otherwise the recentered engine output. -/
noncomputable def MotionRunner.tick (r : MotionRunner) : List ℝ × MotionRunner :=
  let t := GaitManager.tick r.gm
  match t.1 with
  | none => (List.replicate 8 r.neutral_center_deg, { r with gm := t.2 })
  | some q_abs => (r.recenter_to_150 q_abs, { r with gm := t.2 })

/-- The loop-local state of `loop_forever`: the scheduled next tick time,
the debounce register and the runner. -/
structure LoopState where
  next_t : ℚ
  last_gesture : Option String
  runner : MotionRunner

/-- One iteration of `loop_forever`, with the polled gesture and the current
clock reading as explicit inputs.  Returns the writes issued, whether a tick
fired (`now >= next_t`), and the next state; when no tick fires the loop
sleeps until `next_t`. -/
noncomputable def loopStep (s : LoopState) (gesture : Option String) (now : ℚ) :
    List (List ℝ) × Bool × LoopState :=
  let acted :=
    if gesture ≠ s.last_gesture ∧ gesture ≠ none then
      let sg := s.runner.set_gesture gesture
      (sg.1, sg.2, gesture)
    else ([], s.runner, s.last_gesture)
  if now ≥ s.next_t then
    let t := acted.2.1.tick
    (acted.1 ++ [t.1], true, ⟨s.next_t + 1 / s.runner.hz, acted.2.2, t.2⟩)
  else
    (acted.1, false, ⟨s.next_t, acted.2.2, acted.2.1⟩)

/-- `k` iterations of `loop_forever` with no gesture polled and a frozen
clock reading (the back-to-back catch-up situation). -/
noncomputable def loopRepeat (s : LoopState) (now : ℚ) : ℕ → LoopState
  | 0 => s
  | k + 1 => (loopStep (loopRepeat s now k) none now).2.2

/-- A run of `loop_forever` over a finite trace of
`(polled gesture, clock reading)` pairs. -/
noncomputable def loopRun (s : LoopState) : List (Option String × ℚ) → LoopState
  | [] => s
  | (g, now) :: rest => loopRun (loopStep s g now).2.2 rest

/-! ## Concrete instances used by witnesses -/

/-- Two-tick trot gait with a reachable neutral pose. -/
noncomputable def wTrotSpec : GaitSpec := ⟨.trot, 0, 1, 0, 0, 0, 1, 1⟩

/-- A gait whose neutral foot position is IK-unreachable for `wGeom`. -/
noncomputable def wBadSpec : GaitSpec := ⟨.trot, 10, 0, 0, 0, 0, 1, 1⟩

/-- Concrete gait table for witnesses. -/
noncomputable def wTable : GaitTable := [("TROT", wTrotSpec), ("JUMP", wJumpSpec), ("BAD", wBadSpec)]

/-- Concrete engine state with the trot loaded and the engine stopped. -/
noncomputable def wGMT : GaitManager := ⟨wGeom, wTable, "TROT", wTrotSpec, [], none, 0, []⟩

/-- Concrete scheduler state for witnesses. -/
noncomputable def wRunner : MotionRunner :=
  { gm := wGMT, gaits := wTable, hz := 2, neutral_center_deg := 150, gait_name := "TROT",
    neutral_x := 0, neutral_y := 1, q_neutral := [0, 0, 0, 0, 0, 0, 0, 0],
    current_dir := none, is_jumping := false }

/-- Concrete controller for witnesses (neutral IK angles of `wGeom` at
`(2, 0)` are `(0, 0)`). -/
noncomputable def wC : Q8GaitController := ⟨wGMT, 0, 0⟩

/-- The known command vocabulary of `_map_command_to_direction`. -/
def knownCommandTokens : List String :=
  ["idle", "none", "stop", "", "forward", "f", "backward", "b",
   "turn_left", "left", "l", "turn_right", "right", "r"]

/-- The known gesture vocabulary of `GESTURE_TO_DIR`. -/
def knownGestureTokens : List String :=
  ["forward", "backward", "turn_left", "turn_right", "stop",
   "jump", "jump_forward", "jump_backward", "jump_left", "jump_right"]

/-! ## Theorems -/
/-- The annulus condition is equivalent to its square form (no square roots),
which is what concrete instances are checked against. -/
lemma reachable_iff_sq (g : LegGeometry) (x y : ℝ)
    (h1 : 0 ≤ g.link1_length) (h2 : 0 ≤ g.link2_length) :
    reachable g x y ↔
      (g.link1_length - g.link2_length) ^ 2 ≤ x ^ 2 + y ^ 2 ∧
        x ^ 2 + y ^ 2 ≤ (g.link1_length + g.link2_length) ^ 2 := by
  have hs : (0:ℝ) ≤ x ^ 2 + y ^ 2 := by positivity
  have hsq := Real.sq_sqrt hs
  constructor
  · rintro ⟨ha, hb⟩
    constructor
    · calc (g.link1_length - g.link2_length) ^ 2
          = |g.link1_length - g.link2_length| ^ 2 := (sq_abs _).symm
        _ ≤ Real.sqrt (x ^ 2 + y ^ 2) ^ 2 :=
            pow_le_pow_left₀ (abs_nonneg _) ha 2
        _ = x ^ 2 + y ^ 2 := hsq
    · calc x ^ 2 + y ^ 2 = Real.sqrt (x ^ 2 + y ^ 2) ^ 2 := hsq.symm
        _ ≤ (g.link1_length + g.link2_length) ^ 2 :=
            pow_le_pow_left₀ (Real.sqrt_nonneg _) hb 2
  · rintro ⟨ha, hb⟩
    refine ⟨?_, ?_⟩
    · have := Real.sqrt_le_sqrt ha
      rwa [Real.sqrt_sq_eq_abs] at this
    · have := Real.sqrt_le_sqrt hb
      rwa [Real.sqrt_sq (by positivity)] at this

/-- Key trigonometric identity behind the IK round trip: with
`A = L1 + L2·cos q2`, `B = L2·sin q2`, `q1 = atan2 y x − atan2 B A`, if
`A² + B² = x² + y²` then the forward kinematics lands back on `(x, y)`. -/
lemma fk_of_atan2 (L1 L2 x y q2 : ℝ)
    (hAB : (L1 + L2 * Real.cos q2) ^ 2 + (L2 * Real.sin q2) ^ 2 = x ^ 2 + y ^ 2) :
    L1 * Real.cos (atan2 y x - atan2 (L2 * Real.sin q2) (L1 + L2 * Real.cos q2)) +
        L2 * Real.cos (atan2 y x - atan2 (L2 * Real.sin q2) (L1 + L2 * Real.cos q2) + q2) = x ∧
      L1 * Real.sin (atan2 y x - atan2 (L2 * Real.sin q2) (L1 + L2 * Real.cos q2)) +
        L2 * Real.sin (atan2 y x - atan2 (L2 * Real.sin q2) (L1 + L2 * Real.cos q2) + q2) = y := by
  set A := L1 + L2 * Real.cos q2 with hA
  set B := L2 * Real.sin q2 with hB
  set γ := atan2 y x with hγ
  set φ := atan2 B A with hφ
  have hcsum : ∀ t : ℝ, L1 * Real.cos t + L2 * Real.cos (t + q2) = A * Real.cos t - B * Real.sin t := by
    intro t
    rw [Real.cos_add, hA, hB]; ring
  have hssum : ∀ t : ℝ, L1 * Real.sin t + L2 * Real.sin (t + q2) = A * Real.sin t + B * Real.cos t := by
    intro t
    rw [Real.sin_add, hA, hB]; ring
  rcases eq_or_lt_of_le (by positivity : (0:ℝ) ≤ x ^ 2 + y ^ 2) with hz | hz
  · -- degenerate case: x = y = 0, hence A = B = 0 as well
    have hx : x = 0 := by nlinarith [sq_nonneg x, sq_nonneg y]
    have hy : y = 0 := by nlinarith [sq_nonneg x, sq_nonneg y]
    have hA0 : A = 0 := by nlinarith [sq_nonneg A, sq_nonneg B]
    have hB0 : B = 0 := by nlinarith [sq_nonneg A, sq_nonneg B]
    constructor
    · rw [hcsum, hA0, hB0, hx]; ring
    · rw [hssum, hA0, hB0, hy]; ring
  · -- nondegenerate case: use cos/sin of complex arguments
    have hd2 : (0:ℝ) < x ^ 2 + y ^ 2 := hz
    set d := Real.sqrt (x ^ 2 + y ^ 2) with hd
    have hdpos : 0 < d := Real.sqrt_pos.2 hd2
    have hdsq : d ^ 2 = x ^ 2 + y ^ 2 := Real.sq_sqrt hd2.le
    have hznz : (⟨x, y⟩ : ℂ) ≠ 0 := by
      intro h
      have hx : x = 0 := congrArg Complex.re h
      have hy : y = 0 := congrArg Complex.im h
      rw [hx, hy] at hd2; norm_num at hd2
    have hwnz : (⟨A, B⟩ : ℂ) ≠ 0 := by
      intro h
      have ha : A = 0 := congrArg Complex.re h
      have hb : B = 0 := congrArg Complex.im h
      rw [ha, hb] at hAB; rw [← hAB] at hd2; norm_num at hd2
    have habs_z : Complex.abs ⟨x, y⟩ = d := by
      rw [Complex.abs_apply, Complex.normSq_mk, hd]
      ring_nf
    have habs_w : Complex.abs ⟨A, B⟩ = d := by
      rw [Complex.abs_apply, Complex.normSq_mk, hd, ← hAB]
      ring_nf
    have hcγ : Real.cos γ = x / d := by
      rw [hγ, atan2, Complex.cos_arg hznz, habs_z]
    have hsγ : Real.sin γ = y / d := by
      rw [hγ, atan2, Complex.sin_arg, habs_z]
    have hcφ : Real.cos φ = A / d := by
      rw [hφ, atan2, Complex.cos_arg hwnz, habs_w]
    have hsφ : Real.sin φ = B / d := by
      rw [hφ, atan2, Complex.sin_arg, habs_w]
    have hdne : d ≠ 0 := ne_of_gt hdpos
    constructor
    · rw [hcsum, Real.cos_sub, Real.sin_sub, hcγ, hsγ, hcφ, hsφ]
      field_simp
      linear_combination x * hAB - x * hdsq
    · rw [hssum, Real.sin_sub, Real.cos_sub, hcγ, hsγ, hcφ, hsφ]
      field_simp
      linear_combination y * hAB - y * hdsq

/-- On a reachable target the computed knee/hip angles reconstruct the foot
position exactly. -/
lemma fk_roundtrip (g : LegGeometry) (x y : ℝ)
    (hL1 : 0 < g.link1_length) (hL2 : 0 < g.link2_length)
    (hlo : (g.link1_length - g.link2_length) ^ 2 ≤ x ^ 2 + y ^ 2)
    (hhi : x ^ 2 + y ^ 2 ≤ (g.link1_length + g.link2_length) ^ 2) :
    fk g (ik_q1R g x y) (ik_q2R g x y) = (x, y) := by
  set L1 := g.link1_length with hL1d
  set L2 := g.link2_length with hL2d
  have h2L : (0:ℝ) < 2 * L1 * L2 := by positivity
  set c := (x ^ 2 + y ^ 2 - L1 ^ 2 - L2 ^ 2) / (2 * L1 * L2) with hc
  have hc1 : -1 ≤ c := by
    rw [hc, le_div_iff₀ h2L]; nlinarith
  have hc2 : c ≤ 1 := by
    rw [hc, div_le_iff₀ h2L]; nlinarith
  have hq2 : ik_q2R g x y = Real.arccos c := by
    rw [ik_q2R, hc, hL1d, hL2d]
  have hcos : Real.cos (ik_q2R g x y) = c := by
    rw [hq2]; exact Real.cos_arccos hc1 hc2
  have hsin_sq : Real.sin (ik_q2R g x y) ^ 2 = 1 - c ^ 2 := by
    have := Real.sin_sq_add_cos_sq (ik_q2R g x y)
    nlinarith [hcos]
  have hmul : 2 * L1 * L2 * c = x ^ 2 + y ^ 2 - L1 ^ 2 - L2 ^ 2 := by
    rw [hc]; field_simp
  have hAB : (L1 + L2 * Real.cos (ik_q2R g x y)) ^ 2 +
      (L2 * Real.sin (ik_q2R g x y)) ^ 2 = x ^ 2 + y ^ 2 := by
    rw [hcos]; nlinarith [hsin_sq, hmul]
  have hmain := fk_of_atan2 L1 L2 x y (ik_q2R g x y) hAB
  have hq1 : ik_q1R g x y =
      atan2 y x - atan2 (L2 * Real.sin (ik_q2R g x y)) (L1 + L2 * Real.cos (ik_q2R g x y)) := by
    rw [ik_q1R, hL1d, hL2d]
  rw [fk, hq1, ← hL1d, ← hL2d]
  exact Prod.ext hmain.1 hmain.2

/-- C6: for every target in the annulus `|L1−L2| ≤ √(x²+y²) ≤ L1+L2` the
solver reports `ok = true` and the forward kinematics of the returned angles
reconstructs `(x, y)` exactly (hence within any epsilon); outside the annulus
it returns `ok = false` with the defined fallback `(0, 0)` (and, being a pure
function, mutates no state). -/
theorem ik_solve_spec_roundtrip (g : LegGeometry) (x y : ℝ)
    (hL1 : 0 < g.link1_length) (hL2 : 0 < g.link2_length) :
    (reachable g x y →
      (ik_solve g x y false).2.2 = true ∧
        fk g (ik_solve g x y false).1 (ik_solve g x y false).2.1 = (x, y)) ∧
    (¬ reachable g x y → ik_solve g x y false = (0, 0, false)) := by
  constructor
  · intro hr
    have hsq := (reachable_iff_sq g x y hL1.le hL2.le).1 hr
    rw [ik_solve, if_pos hr]
    refine ⟨rfl, ?_⟩
    have : degScale false = 1 := by rw [degScale]; norm_num
    simp only [this, one_mul]
    exact fk_roundtrip g x y hL1 hL2 hsq.1 hsq.2
  · intro hr
    rw [ik_solve, if_neg hr]

/-- Witness for `ik_solve_spec_roundtrip`: unit links, target `(2, 0)` at full
extension. -/
theorem ik_solve_spec_roundtrip_witness :
    (0:ℝ) < (1:ℝ) ∧
      (reachable ⟨0, 1, 1⟩ 2 0 →
        (ik_solve ⟨0, 1, 1⟩ 2 0 false).2.2 = true ∧
          fk ⟨0, 1, 1⟩ (ik_solve ⟨0, 1, 1⟩ 2 0 false).1
            (ik_solve ⟨0, 1, 1⟩ 2 0 false).2.1 = (2, 0)) ∧
      (¬ reachable ⟨0, 1, 1⟩ 2 0 → ik_solve ⟨0, 1, 1⟩ 2 0 false = (0, 0, false)) :=
  ⟨by norm_num, ik_solve_spec_roundtrip ⟨0, 1, 1⟩ 2 0 (by norm_num) (by norm_num)⟩

/-- The foot target depends on the tick index only through its residue modulo
the cycle length. -/
lemma footTarget_mod (s : GaitSpec) (d : Direction) (leg : Leg) (t : ℕ) :
    footTarget s d leg (t % (s.swing_ticks + s.stance_ticks)) = footTarget s d leg t := by
  obtain ⟨k, x0, y0, xr, yr, yb, s1, s2⟩ := s
  cases k <;>
    simp only [footTarget, legPhaseOffset, Nat.mod_add_mod, Nat.mod_mod_of_dvd _ (dvd_refl _)]

/-- The trajectory point is periodic in the tick index with the cycle
length as period. -/
lemma trajPoint_mod (g : LegGeometry) (s : GaitSpec) (d : Direction) (t : ℕ) :
    trajPoint g s d (t % (s.swing_ticks + s.stance_ticks)) = trajPoint g s d t := by
  unfold trajPoint
  rw [footTarget_mod, footTarget_mod, footTarget_mod, footTarget_mod]

/-- If all four leg targets are reachable, the trajectory point exists. -/
lemma trajPoint_ne_none (g : LegGeometry) (s : GaitSpec) (d : Direction) (t : ℕ)
    (h1 : reachable g (footTarget s d .FL t).1 (footTarget s d .FL t).2)
    (h2 : reachable g (footTarget s d .FR t).1 (footTarget s d .FR t).2)
    (h3 : reachable g (footTarget s d .BL t).1 (footTarget s d .BL t).2)
    (h4 : reachable g (footTarget s d .BR t).1 (footTarget s d .BR t).2) :
    trajPoint g s d t ≠ none := by
  unfold trajPoint legIKdeg
  simp only [ik_solve]
  rw [if_pos h1, if_pos h2, if_pos h3, if_pos h4]
  simp

/-- One engine tick leaves the geometry, table, loaded gait and direction
unchanged. -/
lemma tick_preserves (gm : GaitManager) :
    (GaitManager.tick gm).2.geom = gm.geom ∧ (GaitManager.tick gm).2.table = gm.table ∧
      (GaitManager.tick gm).2.loaded = gm.loaded ∧
      (GaitManager.tick gm).2.current_direction = gm.current_direction := by
  unfold GaitManager.tick
  cases h : gm.current_direction <;> simp [h]

/-- While moving from phase 0, the state after `n` ticks keeps the geometry,
gait and direction, and its phase is `n` modulo the cycle length. -/
lemma tickN_state (gm : GaitManager) (d : Direction)
    (hdir : gm.current_direction = some d) (hphase : gm.phase_tick = 0) (n : ℕ) :
    (gm.tickN n).geom = gm.geom ∧ (gm.tickN n).loaded = gm.loaded ∧
      (gm.tickN n).current_direction = some d ∧
      (gm.tickN n).phase_tick = n % (gm.loaded.swing_ticks + gm.loaded.stance_ticks) := by
  induction n with
  | zero =>
    refine ⟨rfl, rfl, hdir, ?_⟩
    simp [GaitManager.tickN, hphase]
  | succ n ih =>
    obtain ⟨hg, hl, hd, hp⟩ := ih
    have ht : gm.tickN (n + 1) = (GaitManager.tick (gm.tickN n)).2 := rfl
    rw [ht]
    unfold GaitManager.tick
    rw [hd]
    dsimp only
    exact ⟨hg, hl, rfl, by rw [hp, hl, Nat.mod_add_mod]⟩

/-- While moving from phase 0 with every phase of the cycle IK-reachable, the
output at tick `n` is the pure trajectory point of `n mod cycle`. -/
lemma outAt_eq_trajPoint (gm : GaitManager) (d : Direction)
    (hdir : gm.current_direction = some d) (hphase : gm.phase_tick = 0)
    (hT : 0 < gm.loaded.swing_ticks + gm.loaded.stance_ticks)
    (hsome : ∀ i, i < gm.loaded.swing_ticks + gm.loaded.stance_ticks →
      trajPoint gm.geom gm.loaded d i ≠ none) (n : ℕ) :
    gm.outAt n =
      trajPoint gm.geom gm.loaded d (n % (gm.loaded.swing_ticks + gm.loaded.stance_ticks)) := by
  obtain ⟨hg, hl, hd, hp⟩ := tickN_state gm d hdir hphase n
  unfold GaitManager.outAt GaitManager.tick
  rw [hd]
  simp only
  rw [hg, hl, hp]
  rcases h : trajPoint gm.geom gm.loaded d
      (n % (gm.loaded.swing_ticks + gm.loaded.stance_ticks)) with _ | v
  · exact absurd h (hsome _ (Nat.mod_lt _ hT))
  · simp

/-- C4: the gait phase is an integer tick counter advanced as
`phase_tick = (phase_tick + 1) mod (swing_ticks + stance_ticks)`, and the tick
output is exactly periodic: once movement starts at phase 0 and every phase of
the cycle solves IK (no per-tick fallback engages), the joint-angle output at
cycle `n`, index `i` equals the output at cycle `n+1`, index `i`,
bit for bit. -/
theorem tick_output_periodic (gm : GaitManager) (d : Direction)
    (hdir : gm.current_direction = some d) (hphase : gm.phase_tick = 0)
    (hT : 0 < gm.loaded.swing_ticks + gm.loaded.stance_ticks)
    (hsome : ∀ i, i < gm.loaded.swing_ticks + gm.loaded.stance_ticks →
      trajPoint gm.geom gm.loaded d i ≠ none) :
    (∀ n, (GaitManager.tick (gm.tickN n)).2.phase_tick =
        ((gm.tickN n).phase_tick + 1) % (gm.loaded.swing_ticks + gm.loaded.stance_ticks)) ∧
    (∀ n i, i < gm.loaded.swing_ticks + gm.loaded.stance_ticks →
      gm.outAt (n * (gm.loaded.swing_ticks + gm.loaded.stance_ticks) + i) =
        gm.outAt ((n + 1) * (gm.loaded.swing_ticks + gm.loaded.stance_ticks) + i)) := by
  constructor
  · intro n
    obtain ⟨hg, hl, hd, hp⟩ := tickN_state gm d hdir hphase n
    unfold GaitManager.tick
    rw [hd]
    simp only
    rw [hl]
  · intro n i hi
    rw [outAt_eq_trajPoint gm d hdir hphase hT hsome,
      outAt_eq_trajPoint gm d hdir hphase hT hsome]
    have hmod : ∀ m, (m * (gm.loaded.swing_ticks + gm.loaded.stance_ticks) + i) %
        (gm.loaded.swing_ticks + gm.loaded.stance_ticks) =
        i % (gm.loaded.swing_ticks + gm.loaded.stance_ticks) := fun m => by
      rw [Nat.mul_comm, Nat.mul_add_mod]
    rw [hmod, hmod]

/-- Every phase of the witness jump cycle is IK-reachable. -/
lemma wGM_traj_some : ∀ i, i < wGM.loaded.swing_ticks + wGM.loaded.stance_ticks →
    trajPoint wGM.geom wGM.loaded Direction.in_place i ≠ none := by
  intro i hi
  have h2 : i < 2 := by
    simpa [wGM, wJumpSpec] using hi
  have hgeq : wGM.geom = wGeom := rfl
  have hleq : wGM.loaded = wJumpSpec := rfl
  rw [hgeq, hleq]
  have hr0 : reachable wGeom 0 (1/2) := by
    rw [reachable_iff_sq _ _ _ (by norm_num [wGeom]) (by norm_num [wGeom])]
    norm_num [wGeom]
  have hr1 : reachable wGeom 0 (3/2) := by
    rw [reachable_iff_sq _ _ _ (by norm_num [wGeom]) (by norm_num [wGeom])]
    norm_num [wGeom]
  interval_cases i
  · have e : ∀ leg, footTarget wJumpSpec Direction.in_place leg 0 = (0, 1/2) := by
      intro leg
      simp [footTarget, wJumpSpec]
      norm_num
    apply trajPoint_ne_none <;> (rw [e]; exact hr0)
  · have e : ∀ leg, footTarget wJumpSpec Direction.in_place leg 1 = (0, 3/2) := by
      intro leg
      simp [footTarget, wJumpSpec]
      norm_num
    apply trajPoint_ne_none <;> (rw [e]; exact hr1)

/-- Witness for `tick_output_periodic`: the two-tick witness jump gait. -/
theorem tick_output_periodic_witness :
    wGM.current_direction = some .in_place ∧ wGM.phase_tick = 0 ∧
      0 < wGM.loaded.swing_ticks + wGM.loaded.stance_ticks ∧
      ((∀ n, (GaitManager.tick (wGM.tickN n)).2.phase_tick =
          ((wGM.tickN n).phase_tick + 1) % (wGM.loaded.swing_ticks + wGM.loaded.stance_ticks)) ∧
        (∀ n i, i < wGM.loaded.swing_ticks + wGM.loaded.stance_ticks →
          wGM.outAt (n * (wGM.loaded.swing_ticks + wGM.loaded.stance_ticks) + i) =
            wGM.outAt ((n + 1) * (wGM.loaded.swing_ticks + wGM.loaded.stance_ticks) + i))) := by
  refine ⟨rfl, rfl, by norm_num [wGM, wJumpSpec], ?_⟩
  exact tick_output_periodic wGM .in_place rfl rfl (by norm_num [wGM, wJumpSpec]) wGM_traj_some

/-- C3: the full transition table of `StateMachine.update`: `Init` always
yields `(Idle, idle)`; `SafetyStop` moves on the three movement gestures and
otherwise stays with `idle`; `Idle` moves on the three movement gestures and
otherwise stays with `idle`; `Moving` returns to `(Idle, idle)` on
`stop`/`none` and otherwise remains `Moving` with the gesture mapped to a
command, unmapped gestures mapping to `idle`. -/
theorem state_machine_update_table (g : String) :
    StateMachine.update .INIT g = (.IDLE, "idle") ∧
    ((g = "forward" ∨ g = "turn_left" ∨ g = "turn_right") →
      StateMachine.update .SAFETY_STOP g = (.MOVING, g)) ∧
    (¬(g = "forward" ∨ g = "turn_left" ∨ g = "turn_right") →
      StateMachine.update .SAFETY_STOP g = (.SAFETY_STOP, "idle")) ∧
    ((g = "forward" ∨ g = "turn_left" ∨ g = "turn_right") →
      StateMachine.update .IDLE g = (.MOVING, g)) ∧
    (¬(g = "forward" ∨ g = "turn_left" ∨ g = "turn_right") →
      StateMachine.update .IDLE g = (.IDLE, "idle")) ∧
    ((g = "stop" ∨ g = "none") → StateMachine.update .MOVING g = (.IDLE, "idle")) ∧
    (¬(g = "stop" ∨ g = "none") →
      StateMachine.update .MOVING g = (.MOVING, gestureToCommand g)) ∧
    (¬(g = "forward" ∨ g = "turn_left" ∨ g = "turn_right") → gestureToCommand g = "idle") := by
  have hcmd : ∀ h : ¬(g = "forward" ∨ g = "turn_left" ∨ g = "turn_right"),
      gestureToCommand g = "idle" := by
    intro h
    push_neg at h
    obtain ⟨h1, h2, h3⟩ := h
    simp [gestureToCommand, h1, h2, h3]
  refine ⟨rfl, ?_, ?_, ?_, ?_, ?_, ?_, hcmd⟩
  · rintro (h | h | h) <;> subst h <;> simp [StateMachine.update, gestureToCommand]
  · intro h
    simp only [StateMachine.update]
    rw [if_neg h]
  · rintro (h | h | h) <;> subst h <;> simp [StateMachine.update]
  · intro h
    push_neg at h
    obtain ⟨h1, h2, h3⟩ := h
    simp [StateMachine.update, h1, h2, h3]
  · intro h
    simp only [StateMachine.update]
    rw [if_pos h]
  · intro h
    simp only [StateMachine.update]
    rw [if_neg h]

/-- Witness for `state_machine_update_table`: the spec's four sample
transitions. -/
theorem state_machine_update_table_witness :
    StateMachine.update .INIT "stop" = (.IDLE, "idle") ∧
      StateMachine.update .SAFETY_STOP "forward" = (.MOVING, "forward") ∧
      StateMachine.update .IDLE "turn_left" = (.MOVING, "turn_left") ∧
      StateMachine.update .MOVING "stop" = (.IDLE, "idle") :=
  ⟨(state_machine_update_table "stop").1,
    (state_machine_update_table "forward").2.1 (Or.inl rfl),
    (state_machine_update_table "turn_left").2.2.2.1 (Or.inr (Or.inl rfl)),
    (state_machine_update_table "stop").2.2.2.2.2.1 (Or.inl rfl)⟩

/-- C5: on a scheduler tick, a stopped engine (`tick() = None`) produces the
all-`neutral_center` pose, and a moving engine's 8 absolute angles are each
recentered as `neutral_center + (absolute − corresponding neutral)`. -/
theorem runner_tick_recenter (r : MotionRunner) :
    ((GaitManager.tick r.gm).1 = none →
      (MotionRunner.tick r).1 = List.replicate 8 r.neutral_center_deg) ∧
    (∀ q, (GaitManager.tick r.gm).1 = some q →
      ∀ i, i < 8 → ((MotionRunner.tick r).1).getD i 0 =
        r.neutral_center_deg + (q.getD i 0 - r.q_neutral.getD i 0)) := by
  constructor
  · intro h
    unfold MotionRunner.tick
    dsimp only
    rw [h]
  · intro q hq i hi
    unfold MotionRunner.tick
    dsimp only
    rw [hq]
    unfold MotionRunner.recenter_to_150
    rw [List.getD_eq_getElem?_getD, List.getElem?_map, List.getElem?_range hi]
    simp

/-- Witness for `runner_tick_recenter`: the stopped witness runner writes the
all-150 pose. -/
theorem runner_tick_recenter_witness :
    (GaitManager.tick wRunner.gm).1 = none ∧
      (MotionRunner.tick wRunner).1 = List.replicate 8 wRunner.neutral_center_deg := by
  have h : (GaitManager.tick wRunner.gm).1 = none := rfl
  exact ⟨h, (runner_tick_recenter wRunner).1 h⟩

/-- `load_gait` on an absent name fails and leaves the state unchanged. -/
lemma load_gait_absent (gm : GaitManager) (name : String)
    (h : lookupGait gm.table name = none) :
    gm.load_gait name = (false, gm) := by
  unfold GaitManager.load_gait
  rw [h]

/-- `load_gait` on an IK-unreachable neutral pose fails and leaves the state
unchanged. -/
lemma load_gait_unreachable (gm : GaitManager) (name : String) (s : GaitSpec)
    (h : lookupGait gm.table name = some s) (hr : ¬ reachable gm.geom s.x0 s.y0) :
    gm.load_gait name = (false, gm) := by
  unfold GaitManager.load_gait
  rw [h]
  simp only [ik_solve, if_neg hr]
  simp

/-- C7: constructing `Q8GaitController` or `MotionRunner` with an unknown
gait name, or with a gait whose neutral foot position is IK-unreachable,
fails loudly (returns an error) at load time. -/
theorem constructors_fail_loudly (geom : LegGeometry) (table : GaitTable) (name : String)
    (hz : ℕ) (center : ℝ) :
    (lookupGait table name = none →
      mkQ8GaitController geom table name = .error "Unknown gait" ∧
      mkMotionRunner geom name hz center table = .error "Failed to load gait") ∧
    (∀ s, lookupGait table name = some s → ¬ reachable geom s.x0 s.y0 →
      mkQ8GaitController geom table name = .error "Failed to load gait" ∧
      mkMotionRunner geom name hz center table = .error "Failed to load gait") := by
  constructor
  · intro h
    constructor
    · unfold mkQ8GaitController
      rw [h]
      rfl
    · unfold mkMotionRunner
      rw [load_gait_absent (initGM geom table) name h]
  · intro s h hr
    have hfail : (initGM geom table).load_gait name = (false, initGM geom table) :=
      load_gait_unreachable (initGM geom table) name s h hr
    constructor
    · unfold mkQ8GaitController
      rw [h, hfail]
      rfl
    · unfold mkMotionRunner
      rw [hfail]

/-- Witness for `constructors_fail_loudly`: the unknown name `"NOPE"` and the
unreachable `"BAD"` gait of the witness table. -/
theorem constructors_fail_loudly_witness :
    (lookupGait wTable "NOPE" = none ∧
      mkQ8GaitController wGeom wTable "NOPE" = .error "Unknown gait" ∧
      mkMotionRunner wGeom "NOPE" 2 150 wTable = .error "Failed to load gait") ∧
    (lookupGait wTable "BAD" = some wBadSpec ∧ ¬ reachable wGeom wBadSpec.x0 wBadSpec.y0 ∧
      mkQ8GaitController wGeom wTable "BAD" = .error "Failed to load gait" ∧
      mkMotionRunner wGeom "BAD" 2 150 wTable = .error "Failed to load gait") := by
  have h1 : lookupGait wTable "NOPE" = none := rfl
  have h2 : lookupGait wTable "BAD" = some wBadSpec := rfl
  have h3 : ¬ reachable wGeom wBadSpec.x0 wBadSpec.y0 := by
    rw [reachable_iff_sq _ _ _ (by norm_num [wGeom]) (by norm_num [wGeom])]
    rintro ⟨-, hb⟩
    norm_num [wGeom, wBadSpec] at hb
  refine ⟨⟨h1, ?_, ?_⟩, h2, h3, ?_, ?_⟩
  · exact ((constructors_fail_loudly wGeom wTable "NOPE" 2 150).1 h1).1
  · exact ((constructors_fail_loudly wGeom wTable "NOPE" 2 150).1 h1).2
  · exact ((constructors_fail_loudly wGeom wTable "BAD" 2 150).2 wBadSpec h2 h3).1
  · exact ((constructors_fail_loudly wGeom wTable "BAD" 2 150).2 wBadSpec h2 h3).2

/-- C8: the command-to-direction mapping is total and returns `None` for
every token outside the known vocabulary, and `set_gesture` routes every
unknown gesture token to stop (engine stopped, no writes, no error). -/
theorem unknown_token_maps_idle (cs g : String) (r : MotionRunner) :
    (cs ∉ knownCommandTokens → mapNormalizedCommand cs = none) ∧
    (∀ command, mapCommandToDirection command = mapNormalizedCommand command.trim.toLower) ∧
    (g ∉ knownGestureTokens →
      GESTURE_TO_DIR g = none ∧
      (MotionRunner.set_gesture r (some g)).1 = [] ∧
      (MotionRunner.set_gesture r (some g)).2.gm.current_direction = none ∧
      (MotionRunner.set_gesture r (some g)).2.current_dir = none) := by
  refine ⟨?_, fun _ => rfl, ?_⟩
  · intro h
    simp only [knownCommandTokens, List.mem_cons, List.not_mem_nil, or_false] at h
    push_neg at h
    obtain ⟨h1, h2, h3, h4, h5, h6, h7, h8, h9, h10, h11, h12, h13, h14⟩ := h
    simp [mapNormalizedCommand, h1, h2, h3, h4, h5, h6, h7, h8, h9, h10, h11, h12, h13, h14]
  · intro h
    simp only [knownGestureTokens, List.mem_cons, List.not_mem_nil, or_false] at h
    push_neg at h
    obtain ⟨g1, g2, g3, g4, g5, g6, g7, g8, g9, g10⟩ := h
    have hd : GESTURE_TO_DIR g = none := by
      simp [GESTURE_TO_DIR, g1, g2, g3, g4, g5, g6, g7, g8, g9, g10]
    have hred : MotionRunner.set_gesture r (some g) =
        ([], { r with gm := r.gm.stop, current_dir := none }) := by
      unfold MotionRunner.set_gesture
      dsimp only
      rw [if_neg (by simp [g6, g7, g8, g9, g10] :
        ¬(g = "jump" ∨ g = "jump_forward" ∨ g = "jump_backward" ∨
          g = "jump_left" ∨ g = "jump_right")), hd]
    rw [hred]
    exact ⟨hd, rfl, rfl, rfl⟩

/-- Witness for `unknown_token_maps_idle`: the out-of-vocabulary token
`"wiggle"`. -/
theorem unknown_token_maps_idle_witness :
    "wiggle" ∉ knownCommandTokens ∧ mapNormalizedCommand "wiggle" = none ∧
      "wiggle" ∉ knownGestureTokens ∧
      (MotionRunner.set_gesture wRunner (some "wiggle")).2.gm.current_direction = none := by
  have hc : "wiggle" ∉ knownCommandTokens := by decide
  have hg : "wiggle" ∉ knownGestureTokens := by decide
  exact ⟨hc, (unknown_token_maps_idle "wiggle" "wiggle" wRunner).1 hc, hg,
    ((unknown_token_maps_idle "wiggle" "wiggle" wRunner).2.2 hg).2.2.1⟩

/-- C10: in every pose dictionary produced by `Q8GaitController` (from both
the per-tick degree list and `pose_from_xy`), left-side legs map joint 1 to
the hip (q1) offset and joint 2 to the knee (q2) offset while the right side
is swapped; offsets are radians relative to the neutral angles, so the
neutral input yields the all-zero pose. -/
theorem joint_dict_right_swap_neutral_zero (c : Q8GaitController)
    (fl1 fl2 fr1 fr2 bl1 bl2 br1 br2 : ℝ) :
    ((degListToJointDict c (some [fl1, fl2, fr1, fr2, bl1, bl2, br1, br2])).front_left_leg_1 =
        radians (fl1 - c.neutral_q1_deg) ∧
      (degListToJointDict c (some [fl1, fl2, fr1, fr2, bl1, bl2, br1, br2])).front_left_leg_2 =
        radians (fl2 - c.neutral_q2_deg) ∧
      (degListToJointDict c (some [fl1, fl2, fr1, fr2, bl1, bl2, br1, br2])).back_left_leg_1 =
        radians (bl1 - c.neutral_q1_deg) ∧
      (degListToJointDict c (some [fl1, fl2, fr1, fr2, bl1, bl2, br1, br2])).back_left_leg_2 =
        radians (bl2 - c.neutral_q2_deg) ∧
      (degListToJointDict c (some [fl1, fl2, fr1, fr2, bl1, bl2, br1, br2])).front_right_leg_1 =
        radians (fr2 - c.neutral_q2_deg) ∧
      (degListToJointDict c (some [fl1, fl2, fr1, fr2, bl1, bl2, br1, br2])).front_right_leg_2 =
        radians (fr1 - c.neutral_q1_deg) ∧
      (degListToJointDict c (some [fl1, fl2, fr1, fr2, bl1, bl2, br1, br2])).back_right_leg_1 =
        radians (br2 - c.neutral_q2_deg) ∧
      (degListToJointDict c (some [fl1, fl2, fr1, fr2, bl1, bl2, br1, br2])).back_right_leg_2 =
        radians (br1 - c.neutral_q1_deg)) ∧
    degListToJointDict c (some [c.neutral_q1_deg, c.neutral_q2_deg, c.neutral_q1_deg,
      c.neutral_q2_deg, c.neutral_q1_deg, c.neutral_q2_deg, c.neutral_q1_deg,
      c.neutral_q2_deg]) = neutralPose ∧
    (∀ x y, (ik_solve c.gm.geom x y true).2.2 = true →
      (c.pose_from_xy x y).front_left_leg_1 =
          radians ((ik_solve c.gm.geom x y true).1 - c.neutral_q1_deg) ∧
        (c.pose_from_xy x y).front_left_leg_2 =
          radians ((ik_solve c.gm.geom x y true).2.1 - c.neutral_q2_deg) ∧
        (c.pose_from_xy x y).back_left_leg_1 =
          radians ((ik_solve c.gm.geom x y true).1 - c.neutral_q1_deg) ∧
        (c.pose_from_xy x y).back_left_leg_2 =
          radians ((ik_solve c.gm.geom x y true).2.1 - c.neutral_q2_deg) ∧
        (c.pose_from_xy x y).front_right_leg_1 =
          radians ((ik_solve c.gm.geom x y true).2.1 - c.neutral_q2_deg) ∧
        (c.pose_from_xy x y).front_right_leg_2 =
          radians ((ik_solve c.gm.geom x y true).1 - c.neutral_q1_deg) ∧
        (c.pose_from_xy x y).back_right_leg_1 =
          radians ((ik_solve c.gm.geom x y true).2.1 - c.neutral_q2_deg) ∧
        (c.pose_from_xy x y).back_right_leg_2 =
          radians ((ik_solve c.gm.geom x y true).1 - c.neutral_q1_deg)) ∧
    (∀ x y, ik_solve c.gm.geom x y true = (c.neutral_q1_deg, c.neutral_q2_deg, true) →
      c.pose_from_xy x y = neutralPose) := by
  refine ⟨⟨rfl, rfl, rfl, rfl, rfl, rfl, rfl, rfl⟩, ?_, ?_, ?_⟩
  · simp [degListToJointDict, neutralPose, radians]
  · intro x y h
    unfold Q8GaitController.pose_from_xy
    dsimp only
    rw [if_pos h]
    exact ⟨rfl, rfl, rfl, rfl, rfl, rfl, rfl, rfl⟩
  · intro x y h
    unfold Q8GaitController.pose_from_xy
    dsimp only
    rw [h]
    simp [neutralPose, radians]

/-- Witness for `joint_dict_right_swap_neutral_zero`: `ik_solve` of `wGeom`
at `(2, 0)` yields the witness controller's neutral angles `(0, 0)`. -/
theorem joint_dict_right_swap_neutral_zero_witness :
    ik_solve wC.gm.geom 2 0 true = (wC.neutral_q1_deg, wC.neutral_q2_deg, true) ∧
      Q8GaitController.pose_from_xy wC 2 0 = neutralPose ∧
      degListToJointDict wC (some [wC.neutral_q1_deg, wC.neutral_q2_deg, wC.neutral_q1_deg,
        wC.neutral_q2_deg, wC.neutral_q1_deg, wC.neutral_q2_deg, wC.neutral_q1_deg,
        wC.neutral_q2_deg]) = neutralPose := by
  have hr : reachable wGeom 2 0 := by
    rw [reachable_iff_sq _ _ _ (by norm_num [wGeom]) (by norm_num [wGeom])]
    norm_num [wGeom]
  have hq2 : ik_q2R wGeom 2 0 = 0 := by
    have e : ((2:ℝ) ^ 2 + 0 ^ 2 - wGeom.link1_length ^ 2 - wGeom.link2_length ^ 2) /
        (2 * wGeom.link1_length * wGeom.link2_length) = 1 := by
      norm_num [wGeom]
    unfold ik_q2R
    rw [e]
    exact Real.arccos_one
  have hq1 : ik_q1R wGeom 2 0 = 0 := by
    unfold ik_q1R
    rw [hq2]
    norm_num [wGeom]
  have hik : ik_solve wC.gm.geom 2 0 true = (wC.neutral_q1_deg, wC.neutral_q2_deg, true) := by
    show ik_solve wGeom 2 0 true = _
    rw [ik_solve, if_pos hr, hq1, hq2]
    norm_num [wC]
  exact ⟨hik,
    (joint_dict_right_swap_neutral_zero wC 0 0 0 0 0 0 0 0).2.2.2 2 0 hik,
    (joint_dict_right_swap_neutral_zero wC 0 0 0 0 0 0 0 0).2.1⟩

/-- `load_gait` succeeds on a present name with a reachable neutral pose:
the gait is installed, everything else (table, geometry, direction) is
kept. -/
lemma load_gait_success (gm : GaitManager) (name : String) (s : GaitSpec)
    (hl : lookupGait gm.table name = some s) (hr : reachable gm.geom s.x0 s.y0) :
    (gm.load_gait name).1 = true ∧
      (gm.load_gait name).2.loaded_name = name ∧ (gm.load_gait name).2.loaded = s ∧
      (gm.load_gait name).2.table = gm.table ∧ (gm.load_gait name).2.geom = gm.geom ∧
      (gm.load_gait name).2.current_direction = gm.current_direction := by
  have hok : (ik_solve gm.geom s.x0 s.y0 true).2.2 = true := by
    rw [ik_solve, if_pos hr]
  unfold GaitManager.load_gait
  rw [hl]
  dsimp only
  rw [if_pos hok]
  exact ⟨rfl, rfl, rfl, rfl, rfl, rfl⟩

/-- `start_movement` on a fresh direction supported by the loaded gait:
direction set, phase reset. -/
lemma start_movement_go (gm : GaitManager) (d : Direction)
    (hdir : gm.current_direction ≠ some d)
    (hsup : directionSupported gm.loaded.kind d = true) :
    gm.start_movement d = (true, { gm with current_direction := some d, phase_tick := 0 }) := by
  unfold GaitManager.start_movement
  rw [if_neg hdir, if_pos hsup]

/-- While the engine is moving, every iteration of the jump loop writes
exactly one pose, and the loop preserves direction, table and geometry. -/
lemma jumpLoop_spec (r : MotionRunner) (d : Direction) :
    ∀ n gm, gm.current_direction = some d →
      (jumpLoop r n gm).1.length = n ∧
      (jumpLoop r n gm).2.current_direction = some d ∧
      (jumpLoop r n gm).2.table = gm.table ∧
      (jumpLoop r n gm).2.geom = gm.geom := by
  intro n
  induction n with
  | zero => exact fun gm h => ⟨rfl, h, rfl, rfl⟩
  | succ n ih =>
    intro gm h
    have hpres := tick_preserves gm
    have hdir : (GaitManager.tick gm).2.current_direction = some d := by
      rw [hpres.2.2.2, h]
    have hout : (GaitManager.tick gm).1 =
        some ((trajPoint gm.geom gm.loaded d gm.phase_tick).getD gm.prev_out) := by
      unfold GaitManager.tick
      rw [h]
    obtain ⟨ihlen, ihdir, ihtab, ihgeom⟩ := ih (GaitManager.tick gm).2 hdir
    unfold jumpLoop
    dsimp only
    rw [hout]
    refine ⟨?_, ihdir, by rw [ihtab, hpres.2.1], by rw [ihgeom, hpres.1]⟩
    simp [ihlen]

/-- C2: on a jump, the scheduler stops, loads the direction's jump gait,
starts it, issues exactly `swing_ticks + stance_ticks` actuator writes (one
full jump cycle), then a sequence of neutral-pose writes (the half-second
settle), and ends with the remembered gait reloaded, no current direction and
the jump flag cleared. -/
theorem do_jump_write_count (r : MotionRunner) (d : Direction) (js ss : GaitSpec)
    (hgaits : r.gaits = r.gm.table)
    (hJ : lookupGait r.gm.table (jumpGaitFor d) = some js)
    (hJk : js.kind = .jump)
    (hJr : reachable r.gm.geom js.x0 js.y0)
    (hS : lookupGait r.gm.table r.gait_name = some ss)
    (hSr : reachable r.gm.geom ss.x0 ss.y0) :
    ∃ jumpWrites,
      (r.do_jump d).1 = jumpWrites ++ r.move_to_neutral_writes (1/2) ∧
      jumpWrites.length = js.swing_ticks + js.stance_ticks ∧
      (∀ w ∈ r.move_to_neutral_writes (1/2), w = List.replicate 8 r.neutral_center_deg) ∧
      (r.do_jump d).2.gm.loaded_name = r.gait_name ∧
      (r.do_jump d).2.gm.get_current_direction = none ∧
      (r.do_jump d).2.current_dir = none ∧
      (r.do_jump d).2.is_jumping = false := by
  have hload1 := load_gait_success (r.gm.stop) (jumpGaitFor d) js hJ hJr
  rcases e1 : (r.gm.stop).load_gait (jumpGaitFor d) with ⟨b1, gm1⟩
  rw [e1] at hload1
  obtain ⟨hb1, hname1, hloaded1, htab1, hgeom1, hdir1⟩ := hload1
  subst hb1
  have hdirn : gm1.current_direction = none := hdir1
  have e2 : gm1.start_movement d =
      (true, { gm1 with current_direction := some d, phase_tick := 0 }) := by
    refine start_movement_go gm1 d (by rw [hdirn]; simp) ?_
    rw [hloaded1, hJk]
    cases d <;> rfl
  have hjp : (lookupGait r.gaits (jumpGaitFor d)).getD defaultSpec = js := by
    rw [hgaits, hJ]
    rfl
  have hred : r.do_jump d =
      ((jumpLoop r (js.swing_ticks + js.stance_ticks)
          { gm1 with current_direction := some d, phase_tick := 0 }).1 ++
        r.move_to_neutral_writes (1/2),
       { r with
          gm := (((jumpLoop r (js.swing_ticks + js.stance_ticks)
            { gm1 with current_direction := some d, phase_tick := 0 }).2.stop).load_gait
              r.gait_name).2,
          current_dir := none, is_jumping := false }) := by
    unfold MotionRunner.do_jump
    dsimp only
    rw [e1]
    dsimp only
    rw [e2]
    dsimp only
    rw [hjp]
  obtain ⟨hlen, hldir, hltab, hlgeom⟩ :=
    jumpLoop_spec r d (js.swing_ticks + js.stance_ticks)
      { gm1 with current_direction := some d, phase_tick := 0 } rfl
  have htabfin : ((jumpLoop r (js.swing_ticks + js.stance_ticks)
      { gm1 with current_direction := some d, phase_tick := 0 }).2.stop).table = r.gm.table := by
    show (jumpLoop r (js.swing_ticks + js.stance_ticks)
      { gm1 with current_direction := some d, phase_tick := 0 }).2.table = r.gm.table
    rw [hltab]
    exact htab1
  have hgeomfin : ((jumpLoop r (js.swing_ticks + js.stance_ticks)
      { gm1 with current_direction := some d, phase_tick := 0 }).2.stop).geom = r.gm.geom := by
    show (jumpLoop r (js.swing_ticks + js.stance_ticks)
      { gm1 with current_direction := some d, phase_tick := 0 }).2.geom = r.gm.geom
    rw [hlgeom]
    exact hgeom1
  have hload2 := load_gait_success
    ((jumpLoop r (js.swing_ticks + js.stance_ticks)
      { gm1 with current_direction := some d, phase_tick := 0 }).2.stop)
    r.gait_name ss (by rw [htabfin]; exact hS) (by rw [hgeomfin]; exact hSr)
  refine ⟨(jumpLoop r (js.swing_ticks + js.stance_ticks)
      { gm1 with current_direction := some d, phase_tick := 0 }).1, ?_, hlen,
    fun w hw => List.eq_of_mem_replicate hw, ?_, ?_, ?_, ?_⟩
  · rw [hred]
  · rw [hred]
    exact hload2.2.1
  · rw [hred]
    show (_ : GaitManager).current_direction = none
    rw [hload2.2.2.2.2.2]
    rfl
  · rw [hred]
  · rw [hred]

/-- Witness for `do_jump_write_count`: an in-place jump from the witness
runner (trot loaded, two-tick jump gait). -/
theorem do_jump_write_count_witness :
    wRunner.gaits = wRunner.gm.table ∧
      lookupGait wRunner.gm.table (jumpGaitFor .in_place) = some wJumpSpec ∧
      wJumpSpec.kind = .jump ∧ reachable wRunner.gm.geom wJumpSpec.x0 wJumpSpec.y0 ∧
      lookupGait wRunner.gm.table wRunner.gait_name = some wTrotSpec ∧
      reachable wRunner.gm.geom wTrotSpec.x0 wTrotSpec.y0 ∧
      (∃ jumpWrites,
        (wRunner.do_jump .in_place).1 =
          jumpWrites ++ wRunner.move_to_neutral_writes (1/2) ∧
        jumpWrites.length = wJumpSpec.swing_ticks + wJumpSpec.stance_ticks ∧
        (∀ w ∈ wRunner.move_to_neutral_writes (1/2),
          w = List.replicate 8 wRunner.neutral_center_deg) ∧
        (wRunner.do_jump .in_place).2.gm.loaded_name = wRunner.gait_name ∧
        (wRunner.do_jump .in_place).2.gm.get_current_direction = none ∧
        (wRunner.do_jump .in_place).2.current_dir = none ∧
        (wRunner.do_jump .in_place).2.is_jumping = false) := by
  have hJr : reachable wRunner.gm.geom wJumpSpec.x0 wJumpSpec.y0 := by
    show reachable wGeom _ _
    rw [reachable_iff_sq _ _ _ (by norm_num [wGeom]) (by norm_num [wGeom])]
    norm_num [wGeom, wJumpSpec]
  have hSr : reachable wRunner.gm.geom wTrotSpec.x0 wTrotSpec.y0 := by
    show reachable wGeom _ _
    rw [reachable_iff_sq _ _ _ (by norm_num [wGeom]) (by norm_num [wGeom])]
    norm_num [wGeom, wTrotSpec]
  exact ⟨rfl, rfl, rfl, hJr, rfl, hSr,
    do_jump_write_count wRunner .in_place wJumpSpec wTrotSpec rfl rfl rfl hJr rfl hSr⟩

/-- When the polled gesture equals the last one or is `None`, the iteration
performs no `set_gesture` call: it either ticks (advancing the schedule by
exactly `1/hz`) or sleeps. -/
lemma loopStep_nogesture (s : LoopState) (g : Option String) (now : ℚ)
    (hg : g = s.last_gesture ∨ g = none) :
    loopStep s g now =
      if now ≥ s.next_t then
        ([(MotionRunner.tick s.runner).1], true,
          ⟨s.next_t + 1 / s.runner.hz, s.last_gesture, (MotionRunner.tick s.runner).2⟩)
      else ([], false, ⟨s.next_t, s.last_gesture, s.runner⟩) := by
  have hcond : ¬(g ≠ s.last_gesture ∧ g ≠ none) := by
    rcases hg with h | h <;> simp [h]
  unfold loopStep
  rw [if_neg hcond]
  dsimp only
  by_cases h : now ≥ s.next_t
  · rw [if_pos h, if_pos h]
    simp
  · rw [if_neg h, if_neg h]

/-- `MotionRunner.tick` changes only the engine state, and the engine tick
keeps the current direction. -/
lemma motionTick_preserves (r : MotionRunner) :
    (MotionRunner.tick r).2.hz = r.hz ∧
      (MotionRunner.tick r).2.current_dir = r.current_dir ∧
      (MotionRunner.tick r).2.gm.current_direction = r.gm.current_direction := by
  unfold MotionRunner.tick
  dsimp only
  cases h : (GaitManager.tick r.gm).1 <;>
    simp [h, (tick_preserves r.gm).2.2.2]

/-- An iteration whose polled gesture is `None` or unchanged preserves the
movement state and the debounce register. -/
lemma loopStep_none_preserves (s : LoopState) (g : Option String) (now : ℚ)
    (hg : g = s.last_gesture ∨ g = none) :
    (loopStep s g now).2.2.runner.gm.current_direction = s.runner.gm.current_direction ∧
      (loopStep s g now).2.2.runner.current_dir = s.runner.current_dir ∧
      (loopStep s g now).2.2.last_gesture = s.last_gesture := by
  rw [loopStep_nogesture s g now hg]
  by_cases h : now ≥ s.next_t
  · rw [if_pos h]
    exact ⟨(motionTick_preserves s.runner).2.2, (motionTick_preserves s.runner).2.1, rfl⟩
  · rw [if_neg h]
    exact ⟨rfl, rfl, rfl⟩

/-- While the clock reading stays at or beyond the scheduled target, every
iteration fires a tick and the target advances by exactly `1/hz` — the loop
never resynchronizes the schedule to the clock. -/
lemma loopRepeat_behind (s : LoopState) (now : ℚ) :
    ∀ k : ℕ, now ≥ s.next_t + (k : ℚ) * (1 / s.runner.hz) →
      (loopRepeat s now k).next_t = s.next_t + (k : ℚ) * (1 / s.runner.hz) ∧
      (loopRepeat s now k).runner.hz = s.runner.hz ∧
      (loopStep (loopRepeat s now k) none now).2.1 = true ∧
      (loopRepeat s now (k + 1)).next_t = s.next_t + ((k : ℚ) + 1) * (1 / s.runner.hz) := by
  have hdt : (0:ℚ) ≤ 1 / s.runner.hz := by positivity
  intro k
  induction k with
  | zero =>
    intro hk
    have hk0 : now ≥ s.next_t := by simpa using hk
    have hfire : (loopStep s none now).2.1 = true := by
      rw [loopStep_nogesture s none now (Or.inr rfl), if_pos hk0]
    refine ⟨by simp [loopRepeat], rfl, hfire, ?_⟩
    show (loopStep s none now).2.2.next_t = _
    rw [loopStep_nogesture s none now (Or.inr rfl), if_pos hk0]
    push_cast
    ring
  | succ k ih =>
    intro hk
    have hk' : now ≥ s.next_t + k * (1 / s.runner.hz) := by
      have : (k:ℚ) * (1 / s.runner.hz) ≤ (k + 1 : ℕ) * (1 / s.runner.hz) := by
        have : ((k:ℚ)) ≤ ((k:ℚ) + 1) := by linarith
        push_cast
        nlinarith [hdt]
      linarith [hk, this]
    obtain ⟨hnext, hhz, hfire, hnext1⟩ := ih hk'
    have hknext : now ≥ (loopRepeat s now (k + 1)).next_t := by
      rw [hnext1]
      push_cast at hk
      exact hk
    have hhz1 : (loopRepeat s now (k + 1)).runner.hz = s.runner.hz := by
      show ((loopStep (loopRepeat s now k) none now).2.2).runner.hz = _
      rw [loopStep_nogesture _ _ _ (Or.inr rfl)]
      by_cases h : now ≥ (loopRepeat s now k).next_t
      · rw [if_pos h]
        show (MotionRunner.tick _).2.hz = _
        rw [(motionTick_preserves _).1]
        exact hhz
      · rw [if_neg h]
        exact hhz
    have hfire1 : (loopStep (loopRepeat s now (k + 1)) none now).2.1 = true := by
      rw [loopStep_nogesture _ _ _ (Or.inr rfl), if_pos hknext]
    refine ⟨by push_cast; exact hnext1, hhz1, hfire1, ?_⟩
    show ((loopStep (loopRepeat s now (k + 1)) none now).2.2).next_t = _
    rw [loopStep_nogesture _ _ _ (Or.inr rfl), if_pos hknext]
    dsimp only
    rw [hnext1, hhz1]
    push_cast
    ring

/-- C1 counterexample: in `loop_forever` there is no `max_lag`
resynchronization.  With the schedule target at `0` and the clock at `10`
(a lag far beyond any configured threshold — the legacy `main.py` loop uses
`MAX_LAG_SEC` well below `10`), the iteration fires a tick and advances the
target only to `1/2` — not to the clock — and the immediately following
iteration at the same instant fires another tick: two catch-up ticks
back-to-back. -/
theorem loop_forever_no_resync_cex :
    (10:ℚ) - (⟨0, none, wRunner⟩ : LoopState).next_t > 1 ∧
      (loopStep ⟨0, none, wRunner⟩ none 10).2.1 = true ∧
      (loopStep ⟨0, none, wRunner⟩ none 10).2.2.next_t = 1 / 2 ∧
      (loopStep ⟨0, none, wRunner⟩ none 10).2.2.next_t < 10 ∧
      (loopStep (loopStep ⟨0, none, wRunner⟩ none 10).2.2 none 10).2.1 = true := by
  have h0 : ((10:ℚ)) ≥ (⟨0, none, wRunner⟩ : LoopState).next_t := by norm_num
  have h1 : loopStep ⟨0, none, wRunner⟩ none 10 =
      ([(MotionRunner.tick wRunner).1], true,
        ⟨(0:ℚ) + 1 / ((2:ℕ) : ℚ), none, (MotionRunner.tick wRunner).2⟩) := by
    rw [loopStep_nogesture _ _ _ (Or.inr rfl), if_pos h0]
    rfl
  have hnext : ((0:ℚ) + 1 / ((2:ℕ) : ℚ)) = 1 / 2 := by norm_num
  refine ⟨by norm_num, ?_, ?_, ?_, ?_⟩
  · rw [h1]
  · rw [h1]
    exact hnext
  · rw [h1]
    show ((0:ℚ) + 1 / ((2:ℕ) : ℚ)) < 10
    norm_num
  · rw [h1]
    rw [loopStep_nogesture _ _ _ (Or.inr rfl), if_pos (by norm_num : (10:ℚ) ≥ 0 + 1 / ((2:ℕ) : ℚ))]

/-- C1 amended: in `loop_forever` the scheduled tick time is a monotonic
target advanced by exactly `1/hz` per fired tick and never resynchronized to
the clock; consequently, when the clock is at least `k` tick intervals past
the target, the next `k+1` iterations each fire a catch-up tick back-to-back
(missed ticks are replayed, not dropped). -/
theorem loop_forever_catchup_burst (s : LoopState) (now : ℚ) (h : now ≥ s.next_t) :
    ((loopStep s none now).2.1 = true ∧
      (loopStep s none now).2.2.next_t = s.next_t + 1 / s.runner.hz) ∧
    (∀ k : ℕ, now ≥ s.next_t + (k : ℚ) * (1 / s.runner.hz) →
      (loopStep (loopRepeat s now k) none now).2.1 = true ∧
      (loopRepeat s now (k + 1)).next_t = s.next_t + ((k : ℚ) + 1) * (1 / s.runner.hz)) := by
  constructor
  · constructor
    · rw [loopStep_nogesture s none now (Or.inr rfl), if_pos h]
    · rw [loopStep_nogesture s none now (Or.inr rfl), if_pos h]
  · intro k hk
    obtain ⟨-, -, hfire, hnext1⟩ := loopRepeat_behind s now k hk
    exact ⟨hfire, hnext1⟩

/-- Witness for `loop_forever_catchup_burst`: the witness loop state behind
by ten seconds. -/
theorem loop_forever_catchup_burst_witness :
    (10:ℚ) ≥ (⟨0, none, wRunner⟩ : LoopState).next_t ∧
      (((loopStep ⟨0, none, wRunner⟩ none 10).2.1 = true ∧
        (loopStep ⟨0, none, wRunner⟩ none 10).2.2.next_t =
          (⟨0, none, wRunner⟩ : LoopState).next_t +
            1 / ((⟨0, none, wRunner⟩ : LoopState)).runner.hz) ∧
      (∀ k : ℕ, (10:ℚ) ≥ (⟨0, none, wRunner⟩ : LoopState).next_t +
          (k : ℚ) * (1 / ((⟨0, none, wRunner⟩ : LoopState)).runner.hz) →
        (loopStep (loopRepeat ⟨0, none, wRunner⟩ 10 k) none 10).2.1 = true ∧
        (loopRepeat ⟨0, none, wRunner⟩ 10 (k + 1)).next_t =
          (⟨0, none, wRunner⟩ : LoopState).next_t +
            ((k : ℚ) + 1) * (1 / ((⟨0, none, wRunner⟩ : LoopState)).runner.hz))) :=
  ⟨by norm_num, loop_forever_catchup_burst ⟨0, none, wRunner⟩ 10 (by norm_num)⟩

/-- C9: an iteration of `loop_forever` invokes `set_gesture` only when the
polled gesture is non-`None` and differs from the last gesture acted on: a
`None` polled gesture (or a repeat of the last one) leaves the movement
state and the debounce register unchanged apart from the scheduled tick, so
once movement has started a stream of `None` readings can never stop the
robot. -/
theorem none_gesture_never_stops (s : LoopState) (g : Option String) (now : ℚ) :
    (g = s.last_gesture ∨ g = none →
      loopStep s g now =
        (if now ≥ s.next_t then
          ([(MotionRunner.tick s.runner).1], true,
            ⟨s.next_t + 1 / s.runner.hz, s.last_gesture, (MotionRunner.tick s.runner).2⟩)
        else ([], false, ⟨s.next_t, s.last_gesture, s.runner⟩)) ∧
      (loopStep s g now).2.2.runner.gm.current_direction = s.runner.gm.current_direction ∧
      (loopStep s g now).2.2.runner.current_dir = s.runner.current_dir ∧
      (loopStep s g now).2.2.last_gesture = s.last_gesture) ∧
    (∀ nows : List ℚ,
      (loopRun s (nows.map fun t => ((none : Option String), t))).runner.gm.current_direction =
        s.runner.gm.current_direction ∧
      (loopRun s (nows.map fun t => ((none : Option String), t))).runner.current_dir =
        s.runner.current_dir) := by
  constructor
  · intro hg
    exact ⟨loopStep_nogesture s g now hg, loopStep_none_preserves s g now hg⟩
  · intro nows
    induction nows generalizing s with
    | nil => exact ⟨rfl, rfl⟩
    | cons t rest ih =>
      simp only [List.map_cons, loopRun]
      obtain ⟨ih1, ih2⟩ := ih (loopStep s none t).2.2
      obtain ⟨hp1, hp2, -⟩ := loopStep_none_preserves s none t (Or.inr rfl)
      exact ⟨by rw [ih1, hp1], by rw [ih2, hp2]⟩

/-- Witness for `none_gesture_never_stops`: the witness loop state with a
`None` reading and a two-reading `None` trace. -/
theorem none_gesture_never_stops_witness :
    ((none : Option String) = (⟨0, none, wRunner⟩ : LoopState).last_gesture ∨
        (none : Option String) = none) ∧
      (loopStep ⟨0, none, wRunner⟩ none 0).2.2.runner.gm.current_direction =
        wRunner.gm.current_direction ∧
      (loopRun ⟨0, none, wRunner⟩
          ([(0:ℚ), 1].map fun t => ((none : Option String), t))).runner.gm.current_direction =
        wRunner.gm.current_direction :=
  ⟨Or.inr rfl,
    ((none_gesture_never_stops ⟨0, none, wRunner⟩ none 0).1 (Or.inr rfl)).2.1,
    ((none_gesture_never_stops ⟨0, none, wRunner⟩ none 0).2 [0, 1]).1⟩
